import Mathlib

/-!
# prometheus-apple-refurbed: `src/index.js`

A shallow embedding of the exporter: the module state (`registry`, the library's global
`promClient.register`, and the module variable `gauge`), the functions `getURL`, `extractData`,
`fetchData` and the `GET /metrics` handler.

The program calls into `prom-client` (`Registry`, `Gauge`, `collectDefaultMetrics`) and uses the
builtins `Number.parseFloat`, `Set`, `Object.keys` and object spread.  Their behaviour is embedded
next to the program, each definition named after the library function it stands for:
`lib/validation.js` (`validateLabelName`, `validateLabel`), `lib/util.js` (`hashObject`,
`setValue`), `lib/metric.js` and `lib/gauge.js` (constructor, `reset`, `set`) and
`lib/registry.js` (`registerMetric`, `setDefaultLabels`, `metrics`).  Of Express only
`res.status(..).send(..)` with a string body is embedded (`Response.send`).

Payloads are taken well-typed: a tile has `filters.dimensions` (an object with string values),
`partNumber` and `price.currentPrice.raw_amount` (strings), and the query values are strings or
absent.
-/

namespace AppleRefurbished

/-! ## JavaScript objects with string keys -/

/-- A JavaScript object with string keys: its own properties in insertion order.  The keys of an
object are pairwise distinct (`JSObject.WF`).  JavaScript enumerates keys that are array indices
before the others; the order of enumeration decides nothing below except which of several
offending labels `validateLabel` reports. -/
abbrev JSObject (α : Type) := List (String × α)

namespace JSObject

/-- JavaScript `Object.keys(o)`. -/
def keys {α : Type} (o : JSObject α) : List String := o.map Prod.fst

/-- The keys of an object are pairwise distinct. -/
def WF {α : Type} (o : JSObject α) : Prop := (keys o).Nodup

instance {α : Type} (o : JSObject α) : Decidable (WF o) :=
  inferInstanceAs (Decidable (keys o).Nodup)

/-- Property read `o[k]`; `none` stands for `undefined`. -/
def get {α : Type} : JSObject α → String → Option α
  | [], _ => none
  | (k', v) :: rest, k => if k' = k then some v else get rest k

/-- Property write `o[k] = v`: an existing property keeps its position, a new one goes last. -/
def set {α : Type} : JSObject α → String → α → JSObject α
  | [], k, v => [(k, v)]
  | (k', v') :: rest, k, v => if k' = k then (k', v) :: rest else (k', v') :: set rest k v

/-- Object spread `{...target, ...source}` onto an object under construction. -/
def spread {α : Type} (target source : JSObject α) : JSObject α :=
  source.foldl (fun acc kv => set acc kv.1 kv.2) target

end JSObject

/-- JavaScript `Set.prototype.add` on a set of strings kept in insertion order. -/
def setAdd (s : List String) (k : String) : List String :=
  if k ∈ s then s else s ++ [k]

/-! ## Numbers -/

/-- Result of `Number.parseFloat`.  A finite value is kept as the exact decimal
`(-1)^neg * mantissa * 10^exponent` that the literal denotes, normalised so that the mantissa has
no trailing zero digit; the rounding to a binary64 double is not part of the model. -/
inductive JSNumber where
  | nan
  | infinity (neg : Bool)
  | finite (neg : Bool) (mantissa : Nat) (exponent : Int)
  deriving DecidableEq, Repr

/-- White space and line terminators skipped by `parseFloat` (`StrWhiteSpaceChar`). -/
def isStrWhiteSpaceChar (c : Char) : Bool :=
  c.toNat ∈ [0x09, 0x0A, 0x0B, 0x0C, 0x0D, 0x20, 0xA0, 0x1680, 0x2028, 0x2029, 0x202F, 0x205F,
    0x3000, 0xFEFF] || (0x2000 ≤ c.toNat && c.toNat ≤ 0x200A)

/-- Value of a string of decimal digits. -/
def digitsToNat (ds : List Char) : Nat :=
  ds.foldl (fun n c => 10 * n + (c.toNat - 48)) 0

/-- Number of trailing `0` digits. -/
def trailingZeros (ds : List Char) : Nat :=
  (ds.reverse.takeWhile (fun c => c == '0')).length

/-- The decimal `digits * 10^exponent` in normal form. -/
def mkFinite (neg : Bool) (ds : List Char) (exponent : Int) : JSNumber :=
  let z := trailingZeros ds
  let m := digitsToNat (ds.take (ds.length - z))
  if m = 0 then JSNumber.finite neg 0 0 else JSNumber.finite neg m (exponent + z)

/-- An optional sign in front of a literal. -/
def takeSign : List Char → Bool × List Char
  | '-' :: r => (true, r)
  | '+' :: r => (false, r)
  | cs => (false, cs)

/-- The exponent part `e[+-]digits` at the head of the input, `0` when there is none. -/
def exponentPart : List Char → Int
  | c :: r =>
    if c = 'e' ∨ c = 'E' then
      let (eneg, r') := takeSign r
      let ed := r'.takeWhile Char.isDigit
      if ed = [] then 0 else if eneg then -(digitsToNat ed : Int) else (digitsToNat ed : Int)
    else 0
  | [] => 0

/-- JavaScript `Number.parseFloat(s)`: skip leading white space, read the longest prefix that is a
`StrDecimalLiteral`, and return `NaN` when there is none. -/
def parseFloat (s : String) : JSNumber :=
  let cs := s.toList.dropWhile isStrWhiteSpaceChar
  let (neg, cs) := takeSign cs
  if "Infinity".toList.isPrefixOf cs then JSNumber.infinity neg
  else
    let ip := cs.takeWhile Char.isDigit
    let r1 := cs.dropWhile Char.isDigit
    let fp := match r1 with
      | '.' :: r => r.takeWhile Char.isDigit
      | _ => []
    let r2 := match r1 with
      | '.' :: r => r.dropWhile Char.isDigit
      | _ => r1
    if ip = [] ∧ fp = [] then JSNumber.nan
    else mkFinite neg (ip ++ fp) (exponentPart r2 - fp.length)

/-! ## prom-client -/

/-- Errors thrown by the library calls the program makes. -/
inductive JSError where
  | invalidLabelName
  | labelNotInLabelset (label : String)
  | alreadyRegistered (name : String)
  deriving DecidableEq, Repr

/-- One entry of a metric's `hashMap`: `{ value, labels }`. -/
structure Sample where
  value : JSNumber
  labels : JSObject String
  deriving DecidableEq, Repr

/-- The regular expression `labelRegexp = /^[a-zA-Z_][a-zA-Z0-9_]*$/` of `lib/validation.js`. -/
def labelRegexp (name : String) : Bool :=
  match name.toList with
  | [] => false
  | c :: cs => (c.isAlpha || c == '_') && cs.all (fun d => d.isAlphanum || d == '_')

/-- Library function `validateLabelName(names)`: every name matches `labelRegexp`. -/
def validateLabelName (names : List String) : Bool :=
  names.all labelRegexp

/-- Library function `validateLabel(savedLabels, labels)`: throws at the first key of `labels`
that is not one of the metric's label names. -/
def validateLabel (savedLabels : List String) : JSObject String → Except JSError Unit
  | [] => Except.ok ()
  | (label, _) :: rest =>
    if label ∈ savedLabels then validateLabel savedLabels rest
    else Except.error (JSError.labelNotInLabelset label)

/-- Lexicographic comparison of two strings, character by character. -/
def ltChars : List Char → List Char → Bool
  | [], [] => false
  | [], _ :: _ => true
  | _ :: _, [] => false
  | a :: as, b :: bs => if a.toNat < b.toNat then true else if a = b then ltChars as bs else false

/-- Insertion of a key into a sorted list of keys. -/
def insertKey (k : String) : List String → List String
  | [] => [k]
  | k' :: rest =>
    if ltChars k.toList k'.toList then k :: k' :: rest else k' :: insertKey k rest

/-- JavaScript `keys.sort()` on strings. -/
def sortKeys (ks : List String) : List String :=
  ks.foldr insertKey []

/-- Library function `hashObject(labels)` of `lib/util.js`: the keys in sorted order, each
rendered as `key:value,`.  Releases of the library differ in the separator after the last key;
the theorems below only compare hashes with each other. -/
def hashObject (labels : JSObject String) : String :=
  (sortKeys (JSObject.keys labels)).foldl
    (fun hash key =>
      match JSObject.get labels key with
      | none => hash
      | some value => hash ++ key ++ ":" ++ value ++ ",")
    ""

/-- Library function `setValue(hashMap, value, labels)`: the assignment
`hashMap[hashObject(labels)] = { value, labels }`. -/
def setValue (hashMap : JSObject Sample) (value : JSNumber) (labels : JSObject String) :
    JSObject Sample :=
  JSObject.set hashMap (hashObject labels) { value := value, labels := labels }

/-- A `Gauge`: its configuration and its `hashMap` of current observations. -/
structure Gauge where
  name : String
  help : String
  labelNames : List String
  hashMap : JSObject Sample
  deriving DecidableEq, Repr

namespace Gauge

/-- Method `gauge.reset()`: drop every observation; a gauge without labels starts again at `0`. -/
def reset (g : Gauge) : Gauge :=
  if g.labelNames.length = 0 then
    { g with hashMap := setValue [] (JSNumber.finite false 0 0) [] }
  else { g with hashMap := [] }

/-- Method `gauge.set(labels, value)`: validate the labels against the label names, then store the
observation under the hash of its labels. -/
def set (g : Gauge) (labels : JSObject String) (value : JSNumber) : Except JSError Gauge :=
  match validateLabel g.labelNames labels with
  | Except.error e => Except.error e
  | Except.ok _ => Except.ok { g with hashMap := setValue g.hashMap value labels }

/-- The observations the gauge holds. -/
def observations (g : Gauge) : List Sample :=
  g.hashMap.map Prod.snd

end Gauge

/-- A `Registry`: the names of the metrics registered through a metric constructor, whether the
default process metrics were registered in it, and its default labels. -/
structure Registry where
  metricNames : List String
  defaultMetrics : Bool
  defaultLabels : JSObject String
  deriving DecidableEq, Repr

namespace Registry

/-- Constructor `new promClient.Registry()`. -/
def new : Registry :=
  { metricNames := [], defaultMetrics := false, defaultLabels := [] }

/-- Method `registry.setDefaultLabels(labels)`. -/
def setDefaultLabels (r : Registry) (labels : JSObject String) : Registry :=
  { r with defaultLabels := labels }

/-- Method `registry.registerMetric(metric)` for a freshly constructed metric: a name that is taken
throws. -/
def registerMetric (r : Registry) (name : String) : Except JSError Registry :=
  if name ∈ r.metricNames then Except.error (JSError.alreadyRegistered name)
  else Except.ok { r with metricNames := r.metricNames ++ [name] }

end Registry

/-- Library function `promClient.collectDefaultMetrics` called with `register`: the process
metrics (named `process_*` and `nodejs_*`) are registered in `register`. -/
def collectDefaultMetrics (register : Registry) : Registry :=
  { register with defaultMetrics := true }

/-- Constructor `new promClient.Gauge` called with `name`, `help`, `labelNames` and
`registers: [registry]`: the label names are validated, the gauge is reset and then
registered. -/
def Gauge.new (name help : String) (labelNames : List String) (registry : Registry) :
    Except JSError (Gauge × Registry) :=
  if validateLabelName labelNames then
    match Registry.registerMetric registry name with
    | Except.error e => Except.error e
    | Except.ok registry' =>
      let g : Gauge := { name := name, help := help, labelNames := labelNames, hashMap := [] }
      Except.ok (Gauge.reset g, registry')
  else Except.error JSError.invalidLabelName

/-- What `registry.metrics()` serializes: whether the process metrics are part of it, and the
samples of the registered gauge, each with the registry's default labels merged in as
`{ ...labels, ...defaultLabels, ...labels }`. -/
structure Exposition where
  defaultMetrics : Bool
  samples : List Sample
  deriving DecidableEq, Repr

/-- Method `registry.metrics()`, given the gauge object the name `apple_refurbished` refers to. -/
def Registry.metrics (r : Registry) (gauge : Option Gauge) : Exposition :=
  { defaultMetrics := r.defaultMetrics
    samples :=
      match gauge with
      | none => []
      | some g =>
        if g.name ∈ r.metricNames then
          (Gauge.observations g).map (fun o =>
            if r.defaultLabels.length = 0 then o
            else
              let merged := JSObject.spread (JSObject.spread [] o.labels) r.defaultLabels
              { o with labels := JSObject.spread merged o.labels })
        else [] }

/-! ## The payload -/

/-- The object `tile.filters`. -/
structure Filters where
  dimensions : JSObject String
  deriving DecidableEq, Repr

/-- The object `tile.price.currentPrice`. -/
structure CurrentPrice where
  raw_amount : String
  deriving DecidableEq, Repr

/-- The object `tile.price`. -/
structure Price where
  currentPrice : CurrentPrice
  deriving DecidableEq, Repr

/-- One element of `data.tiles`. -/
structure Tile where
  filters : Filters
  partNumber : String
  price : Price
  deriving DecidableEq, Repr

/-- The bootstrap object `REFURB_GRID_BOOTSTRAP`; `tiles = none` when the property is missing. -/
structure Payload where
  tiles : Option (List Tile)
  deriving DecidableEq, Repr

/-- What fetching and rendering a URL does: it throws, or it yields a document in which the
global `REFURB_GRID_BOOTSTRAP` is assigned or not. -/
inductive PageLoad where
  | failure
  | document (bootstrap : Option Payload)
  deriving DecidableEq, Repr

/-- The value `extractData` returns. -/
inductive Data where
  | null
  | undefined
  | object (payload : Payload)
  deriving DecidableEq, Repr

/-! ## `src/index.js` -/

/-- The variables read from `process.env`, `none` when a variable is not set. -/
structure ProcessEnv where
  CONFIG_COUNTRY : Option String
  CONFIG_DEVICE : Option String

/-- The destructured configuration with its defaults applied. -/
structure Config where
  CONFIG_COUNTRY : String
  CONFIG_DEVICE : String
  deriving DecidableEq, Repr

/-- The destructuring of `process.env` (lines 12-18) with the defaults `'at'` and `'mac'`. -/
def Config.ofEnv (env : ProcessEnv) : Config :=
  { CONFIG_COUNTRY := env.CONFIG_COUNTRY.getD "at"
    CONFIG_DEVICE := env.CONFIG_DEVICE.getD "mac" }

/-- The module state: `registry`, the library's global `promClient.register`, and `gauge`. -/
structure State where
  registry : Registry
  register : Registry
  gauge : Option Gauge
  deriving DecidableEq, Repr

/-- The state after the module body has run (lines 8, 51-60). -/
def init : State :=
  { registry := collectDefaultMetrics Registry.new
    register := Registry.setDefaultLabels Registry.new [("app", "apple-refurbished")]
    gauge := none }

/-- The function `getURL`. -/
def getURL (country device : String) : String :=
  "https://www.apple.com/" ++ country ++ "/shop/refurbished/" ++ device

/-- The function `extractData`: a thrown error is caught and becomes `null`; otherwise the value
of `dom.window.REFURB_GRID_BOOTSTRAP` is returned. -/
def extractData (load : String → PageLoad) (url : String) : Data :=
  match load url with
  | PageLoad.failure => Data.null
  | PageLoad.document none => Data.undefined
  | PageLoad.document (some payload) => Data.object payload

/-- Lines 79-89 of `fetchData`: the set of dimension keys of all tiles. -/
def discoverLabels (tiles : List Tile) : List String :=
  tiles.foldl (fun labels t => (JSObject.keys t.filters.dimensions).foldl setAdd labels) []

/-- Lines 106-111 of `fetchData`: `{ ...dimensions, partNumber, device, country }`. -/
def tileData (country device : String) (t : Tile) : JSObject String :=
  JSObject.set
    (JSObject.set
      (JSObject.set (JSObject.spread [] t.filters.dimensions) "partNumber" t.partNumber)
      "device" device)
    "country" country

/-- Lines 104-117 of `fetchData`: `gauge.set` for every tile in turn.  A throwing `gauge.set`
ends the loop; the gauge keeps what was set before. -/
def populate (country device : String) : List Tile → Gauge → Option JSError × Gauge
  | [], g => (none, g)
  | t :: rest, g =>
    match Gauge.set g (tileData country device t) (parseFloat t.price.currentPrice.raw_amount) with
    | Except.error e => (some e, g)
    | Except.ok g' => populate country device rest g'

/-- How an `async` function ends: it returns a value or it throws. -/
inductive Completion where
  | returned (value : Bool)
  | threw (error : JSError)
  deriving DecidableEq, Repr

/-- The label names the gauge is created with (line 97). -/
def labelNamesFor (tiles : List Tile) : List String :=
  discoverLabels tiles ++ ["partNumber", "country", "device"]

/-- The function `fetchData`, with the page loader of this call as `load`.  An argument that is
`none` (`undefined`) takes its default. -/
def fetchData (cfg : Config) (load : String → PageLoad) (country device : Option String)
    (s : State) : Completion × State :=
  let country := country.getD cfg.CONFIG_COUNTRY
  let device := device.getD cfg.CONFIG_DEVICE
  match extractData load (getURL country device) with
  | Data.null => (Completion.returned false, s)
  | Data.undefined => (Completion.returned false, s)
  | Data.object data =>
    match data.tiles with
    | none => (Completion.returned false, s)
    | some tiles =>
      if tiles.length = 0 then (Completion.returned false, s)
      else
        let created : Except JSError (Gauge × Registry) :=
          match s.gauge with
          | some g => Except.ok (g, s.registry)
          | none =>
            Gauge.new "apple_refurbished" "Apple Refurbished" (labelNamesFor tiles) s.registry
        match created with
        | Except.error e => (Completion.threw e, s)
        | Except.ok (g, registry) =>
          match populate country device tiles (Gauge.reset g) with
          | (some e, g') => (Completion.threw e, { s with registry := registry, gauge := some g' })
          | (none, g') =>
            (Completion.returned true, { s with registry := registry, gauge := some g' })

/-- The query string of a request: `req.query.device` and `req.query.country`. -/
structure Query where
  device : Option String
  country : Option String

/-- A response body: a string passed to `res.send`, or the serialized registry. -/
inductive Body where
  | text (s : String)
  | exposition (e : Exposition)
  deriving DecidableEq, Repr

/-- The response of a handler: status code, `Content-Type` header and body. -/
structure Response where
  status : Nat
  contentType : Option String
  body : Body
  deriving DecidableEq, Repr

/-- Express `res.status(status).send(body)` with a string body on a response whose
`Content-Type` has not been set: `send` types a string as `html`, with charset `utf-8`. -/
def Response.send (status : Nat) (body : String) : Response :=
  { status := status, contentType := some "text/html; charset=utf-8", body := Body.text body }

/-- The constant `registry.contentType`. -/
def Registry.contentType : String := "text/plain; version=0.0.4; charset=utf-8"

/-- The handler of `GET /metrics` (lines 124-140): `res.status(500).send(..)` when `fetchData`
returns `false` or throws, otherwise `res.set('Content-Type', registry.contentType)` and
`res.end(await registry.metrics())` with the default status 200. -/
def metricsHandler (cfg : Config) (load : String → PageLoad) (query : Query) (s : State) :
    Response × State :=
  match fetchData cfg load query.country query.device s with
  | (Completion.threw _, s') => (Response.send 500 "Error fetching data", s')
  | (Completion.returned false, s') => (Response.send 500 "Error fetching data", s')
  | (Completion.returned true, s') =>
    ({ status := 200, contentType := some Registry.contentType,
       body := Body.exposition (Registry.metrics s'.registry s'.gauge) }, s')

/-- One call of `fetchData`: the page loader at the time of the call and the two arguments. -/
structure Call where
  load : String → PageLoad
  country : Option String
  device : Option String

/-- The state after a sequence of calls of `fetchData`. -/
def run (cfg : Config) : List Call → State → State
  | [], s => s
  | c :: rest, s => run cfg rest (fetchData cfg c.load c.country c.device s).2

/-- The states the process can be in: the initial one and those a call of `fetchData` leads to. -/
inductive Reachable (cfg : Config) : State → Prop where
  | init : Reachable cfg init
  | step (s : State) (c : Call) :
      Reachable cfg s → Reachable cfg (fetchData cfg c.load c.country c.device s).2

/-! ## Derived notions -/

/-- The observation `fetchData` builds from a tile (lines 106-116). -/
def tileSample (country device : String) (t : Tile) : Sample :=
  { value := parseFloat t.price.currentPrice.raw_amount, labels := tileData country device t }

/-- The key under which the gauge stores the observation of a tile. -/
def tileHash (country device : String) (t : Tile) : String :=
  hashObject (tileData country device t)

/-- The `hashMap` entry of a tile. -/
def tileEntry (country device : String) (t : Tile) : String × Sample :=
  (tileHash country device t, tileSample country device t)

/-! ## Example inputs -/

/-- The configuration when no variable is set: country `at`, device `mac`. -/
def defaultConfig : Config := Config.ofEnv { CONFIG_COUNTRY := none, CONFIG_DEVICE := none }

/-- A tile with one dimension. -/
def mkTile (key value partNumber amount : String) : Tile :=
  { filters := { dimensions := [(key, value)] }
    partNumber := partNumber
    price := { currentPrice := { raw_amount := amount } } }

/-- A page loader that yields the given tiles for every URL. -/
def loadTiles (tiles : List Tile) : String → PageLoad :=
  fun _ => PageLoad.document (some { tiles := some tiles })

/-- A page loader that fails for every URL. -/
def loadFailure : String → PageLoad :=
  fun _ => PageLoad.failure

/-- The tile of scenario A: colour black, part `MX1`, amount `499.00`. -/
def tileA : Tile := mkTile "color" "black" "MX1" "499.00"

/-- The state after scenario A: `fetchData('at', 'mac')` on the payload with `tileA`. -/
def stateA : State :=
  (fetchData defaultConfig (loadTiles [tileA]) (some "at") (some "mac") init).2

/-- The gauge of `stateA`: the schema of scenario A and the observation of `tileA`. -/
def stateAGauge : Gauge :=
  { name := "apple_refurbished", help := "Apple Refurbished",
    labelNames := ["color", "partNumber", "country", "device"],
    hashMap := [tileEntry "at" "mac" tileA] }

/-- Calls after scenario A: a payload with a new dimension key, a loader failure, an empty tile
list, and the payload of scenario A for another country. -/
def laterCalls : List Call :=
  [{ load := loadTiles [mkTile "storage" "256gb" "MX2" "599.00"], country := none,
     device := none },
   { load := loadFailure, country := some "de", device := some "ipad" },
   { load := loadTiles [], country := none, device := none },
   { load := loadTiles [tileA], country := some "de", device := none }]

/-! # Lemmas -/

/-! ## Objects: reading, writing, spreading -/

theorem JSObject.keys_set {α : Type} (o : JSObject α) (k : String) (v : α) :
    JSObject.keys (JSObject.set o k v) =
      if k ∈ JSObject.keys o then JSObject.keys o else JSObject.keys o ++ [k] := by
  induction o with
  | nil => simp [JSObject.set, JSObject.keys]
  | cons e rest ih =>
    obtain ⟨k', v'⟩ := e
    by_cases h : k' = k
    · simp [JSObject.set, JSObject.keys, h]
    · have h' : ¬ k = k' := fun e => h e.symm
      simp only [JSObject.keys] at ih
      simp only [JSObject.set, JSObject.keys, h, if_false, List.map_cons, List.mem_cons, h',
        false_or, ih]
      split <;> simp

theorem JSObject.mem_keys_set {α : Type} (o : JSObject α) (k : String) (v : α) (x : String) :
    x ∈ JSObject.keys (JSObject.set o k v) ↔ x = k ∨ x ∈ JSObject.keys o := by
  rw [JSObject.keys_set]
  split
  · constructor
    · intro h; exact Or.inr h
    · rintro (h | h)
      · subst h; assumption
      · exact h
  · simp [or_comm]

theorem JSObject.wf_set {α : Type} (o : JSObject α) (k : String) (v : α) (h : JSObject.WF o) :
    JSObject.WF (JSObject.set o k v) := by
  unfold JSObject.WF at *
  rw [JSObject.keys_set]
  split
  · exact h
  · rename_i hk
    exact List.Nodup.append h (List.nodup_singleton k) (by simpa using hk)

theorem JSObject.get_set {α : Type} (o : JSObject α) (k : String) (v : α) (x : String) :
    JSObject.get (JSObject.set o k v) x = if k = x then some v else JSObject.get o x := by
  induction o with
  | nil => simp [JSObject.set, JSObject.get]
  | cons e rest ih =>
    obtain ⟨k', v'⟩ := e
    by_cases h : k' = k
    · subst h
      by_cases hx : k' = x <;> simp [JSObject.set, JSObject.get, hx]
    · by_cases hx : k' = x
      · have h1 : ¬ k = x := fun e => h (hx.trans e.symm)
        subst hx
        simp [JSObject.set, JSObject.get, h, h1]
      · simp [JSObject.set, JSObject.get, h, hx, ih]

/-- In a well-formed object, an entry is present exactly when reading its key gives its value. -/
theorem JSObject.mem_iff_get {α : Type} (o : JSObject α) (h : JSObject.WF o) (k : String)
    (v : α) : (k, v) ∈ o ↔ JSObject.get o k = some v := by
  induction o with
  | nil => simp [JSObject.get]
  | cons e rest ih =>
    obtain ⟨k', v'⟩ := e
    have hwf : JSObject.WF rest := by
      unfold JSObject.WF JSObject.keys at *
      exact (List.nodup_cons.mp h).2
    have hk' : k' ∉ JSObject.keys rest := by
      unfold JSObject.WF JSObject.keys at *
      exact (List.nodup_cons.mp h).1
    by_cases hk : k' = k
    · subst hk
      have : ∀ w, (k', w) ∉ rest := fun w hw =>
        hk' (List.mem_map.mpr ⟨(k', w), hw, rfl⟩)
      simp only [List.mem_cons, Prod.mk.injEq, true_and, JSObject.get, if_true, Option.some.injEq,
        this, or_false]
      exact eq_comm
    · have h' : ¬ k = k' := fun e => hk e.symm
      simp [JSObject.get, hk, h', ih hwf]

theorem JSObject.spread_cons {α : Type} (m : JSObject α) (e : String × α) (es : JSObject α) :
    JSObject.spread m (e :: es) = JSObject.spread (JSObject.set m e.1 e.2) es := rfl

theorem JSObject.spread_nil {α : Type} (m : JSObject α) : JSObject.spread m [] = m := rfl

theorem JSObject.wf_spread {α : Type} (es m : JSObject α) (h : JSObject.WF m) :
    JSObject.WF (JSObject.spread m es) := by
  induction es generalizing m with
  | nil => exact h
  | cons e es ih => exact ih _ (JSObject.wf_set m e.1 e.2 h)

theorem JSObject.mem_keys_spread {α : Type} (es m : JSObject α) (x : String) :
    x ∈ JSObject.keys (JSObject.spread m es) ↔ x ∈ JSObject.keys m ∨ x ∈ JSObject.keys es := by
  induction es generalizing m with
  | nil => simp [JSObject.spread_nil, JSObject.keys]
  | cons e es ih =>
    rw [JSObject.spread_cons, ih, JSObject.mem_keys_set]
    simp only [JSObject.keys, List.map_cons, List.mem_cons]
    tauto

/-- Reading a key after a spread: the last entry of the source with that key wins, and the target
is consulted only when the source has none. -/
theorem JSObject.get_spread {α : Type} (es m : JSObject α) (x : String) :
    JSObject.get (JSObject.spread m es) x =
      match JSObject.get es.reverse x with
      | some v => some v
      | none => JSObject.get m x := by
  induction es generalizing m with
  | nil => simp [JSObject.spread_nil, JSObject.get]
  | cons e es ih =>
    rw [JSObject.spread_cons, ih, JSObject.get_set]
    have happ : ∀ (l : JSObject α), JSObject.get (l ++ [e]) x =
        match JSObject.get l x with
        | some v => some v
        | none => if e.1 = x then some e.2 else none := by
      intro l
      induction l with
      | nil => simp [JSObject.get]
      | cons a l ihl =>
        obtain ⟨ka, va⟩ := a
        by_cases hka : ka = x
        · simp [JSObject.get, hka]
        · simp [JSObject.get, hka, ihl]
    rw [List.reverse_cons, happ]
    cases JSObject.get es.reverse x with
    | some v => rfl
    | none => by_cases hx : e.1 = x <;> simp [hx]

/-- The last entry with a given key, as a decomposition of the list. -/
theorem JSObject.get_reverse_eq_some {α : Type} (es : JSObject α) (k : String) (v : α) :
    JSObject.get es.reverse k = some v ↔
      ∃ pre post, es = pre ++ (k, v) :: post ∧ ∀ e ∈ post, e.1 ≠ k := by
  induction es using List.reverseRecOn with
  | nil => simp [JSObject.get]
  | append_singleton l e ih =>
    obtain ⟨k', v'⟩ := e
    rw [List.reverse_append, List.reverse_singleton, List.singleton_append]
    by_cases hk : k' = k
    · subst hk
      simp only [JSObject.get, if_true, Option.some.injEq]
      constructor
      · intro h; subst h
        exact ⟨l, [], rfl, by simp⟩
      · rintro ⟨pre, post, heq, hpost⟩
        rcases List.eq_nil_or_concat post with hp | ⟨post', e', hp⟩
        · subst hp
          have := List.append_inj_right' heq (by simp)
          simp at this
          exact this.symm ▸ rfl
        · subst hp
          have h2 : l ++ [(k', v')] = (pre ++ (k', v) :: post') ++ [e'] := by
            rw [heq]; simp
          have h3 := List.append_inj_right' h2 (by simp)
          have h4 : e' = (k', v') := by simpa using h3.symm
          exact absurd (by rw [h4]) (hpost e' (by simp))
    · simp only [JSObject.get, hk, if_false, ih]
      constructor
      · rintro ⟨pre, post, heq, hpost⟩
        refine ⟨pre, post ++ [(k', v')], by rw [heq]; simp, ?_⟩
        intro e he
        rcases List.mem_append.mp he with h | h
        · exact hpost e h
        · simp at h; subst h; exact hk
      · rintro ⟨pre, post, heq, hpost⟩
        rcases List.eq_nil_or_concat post with hp | ⟨post', e', hp⟩
        · subst hp
          have := List.append_inj_right' heq (by simp)
          simp at this
          exact absurd this.1 hk
        · subst hp
          have h2 : l ++ [(k', v')] = (pre ++ (k, v) :: post') ++ [e'] := by
            rw [heq]; simp
          have h3 := List.append_inj_left' h2 (by simp)
          exact ⟨pre, post', h3, fun e he => hpost e (by simp [he])⟩

/-- Spreading a well-formed object into an empty one copies it. -/
theorem JSObject.spread_of_wf {α : Type} (es m : JSObject α) (h : JSObject.WF (m ++ es)) :
    JSObject.spread m es = m ++ es := by
  induction es generalizing m with
  | nil => simp [JSObject.spread_nil]
  | cons e es ih =>
    obtain ⟨k, v⟩ := e
    have hk : k ∉ JSObject.keys m := by
      unfold JSObject.WF JSObject.keys at h
      simp only [List.map_append, List.map_cons] at h
      have := (List.nodup_append.mp h).2.2
      intro hm
      exact this hm (List.mem_cons_self _ _)
    have hset : JSObject.set m k v = m ++ [(k, v)] := by
      clear ih h
      induction m with
      | nil => rfl
      | cons a m ihm =>
        obtain ⟨ka, va⟩ := a
        have hne : ¬ ka = k := by
          intro e; apply hk; simp [JSObject.keys, e]
        have hk2 : k ∉ JSObject.keys m := by
          intro hm; apply hk; simp only [JSObject.keys, List.map_cons, List.mem_cons]
          exact Or.inr hm
        simp [JSObject.set, hne, ihm hk2]
    rw [JSObject.spread_cons]
    simp only [hset]
    rw [ih (m ++ [(k, v)]) (by simpa using h)]
    simp

/-! ## The gauge -/

theorem validateLabel_ok_iff (saved : List String) (labels : JSObject String) :
    validateLabel saved labels = Except.ok () ↔ ∀ k ∈ JSObject.keys labels, k ∈ saved := by
  induction labels with
  | nil => simp [validateLabel, JSObject.keys]
  | cons e rest ih =>
    obtain ⟨k, v⟩ := e
    simp only [JSObject.keys] at ih
    by_cases hk : k ∈ saved
    · simp [validateLabel, JSObject.keys, hk, ih]
    · simp [validateLabel, JSObject.keys, hk]

theorem validateLabel_error (saved : List String) (labels : JSObject String)
    (h : ¬ ∀ k ∈ JSObject.keys labels, k ∈ saved) :
    ∃ k, k ∈ JSObject.keys labels ∧ k ∉ saved ∧
      validateLabel saved labels = Except.error (JSError.labelNotInLabelset k) := by
  induction labels with
  | nil => simp [JSObject.keys] at h
  | cons e rest ih =>
    obtain ⟨k, v⟩ := e
    by_cases hk : k ∈ saved
    · have hrest : ¬ ∀ k ∈ JSObject.keys rest, k ∈ saved := by
        intro hall
        apply h
        intro x hx
        simp only [JSObject.keys, List.map_cons, List.mem_cons] at hx
        rcases hx with hx | hx
        · exact hx ▸ hk
        · exact hall x hx
      obtain ⟨k', hk', hns, hv⟩ := ih hrest
      refine ⟨k', ?_, hns, ?_⟩
      · simp only [JSObject.keys, List.map_cons, List.mem_cons]
        exact Or.inr hk'
      · simp [validateLabel, hk, hv]
    · exact ⟨k, by simp [JSObject.keys], hk, by simp [validateLabel, hk]⟩

theorem Gauge.set_ok (g : Gauge) (labels : JSObject String) (value : JSNumber)
    (h : ∀ k ∈ JSObject.keys labels, k ∈ g.labelNames) :
    Gauge.set g labels value = Except.ok { g with hashMap := setValue g.hashMap value labels } := by
  simp [Gauge.set, (validateLabel_ok_iff g.labelNames labels).mpr h]

theorem Gauge.set_error (g : Gauge) (labels : JSObject String) (value : JSNumber)
    (h : ¬ ∀ k ∈ JSObject.keys labels, k ∈ g.labelNames) :
    ∃ k, k ∈ JSObject.keys labels ∧ k ∉ g.labelNames ∧
      Gauge.set g labels value = Except.error (JSError.labelNotInLabelset k) := by
  obtain ⟨k, hk, hns, hv⟩ := validateLabel_error g.labelNames labels h
  exact ⟨k, hk, hns, by simp [Gauge.set, hv]⟩

/-- The loop over the tiles changes nothing of the gauge but its observations. -/
theorem populate_config (country device : String) (tiles : List Tile) (g : Gauge) :
    (populate country device tiles g).2.labelNames = g.labelNames ∧
    (populate country device tiles g).2.name = g.name ∧
    (populate country device tiles g).2.help = g.help := by
  induction tiles generalizing g with
  | nil => simp [populate]
  | cons t rest ih =>
    by_cases h : ∀ k ∈ JSObject.keys (tileData country device t), k ∈ g.labelNames
    · simp only [populate, Gauge.set_ok g _ _ h]
      exact ih _
    · obtain ⟨k, _, _, hv⟩ := Gauge.set_error g (tileData country device t)
        (parseFloat t.price.currentPrice.raw_amount) h
      simp [populate, hv]

/-- When every tile carries only labels of the schema, the loop stores every tile. -/
theorem populate_ok (country device : String) (tiles : List Tile) (g : Gauge)
    (h : ∀ t ∈ tiles, ∀ k ∈ JSObject.keys (tileData country device t), k ∈ g.labelNames) :
    populate country device tiles g =
      (none, ⟨g.name, g.help, g.labelNames,
        JSObject.spread g.hashMap (tiles.map (tileEntry country device))⟩) := by
  induction tiles generalizing g with
  | nil => simp [populate, JSObject.spread_nil]
  | cons t rest ih =>
    have ht := h t (List.mem_cons_self _ _)
    simp only [populate, Gauge.set_ok g _ _ ht]
    have key := ih ⟨g.name, g.help, g.labelNames, setValue g.hashMap
      (parseFloat t.price.currentPrice.raw_amount) (tileData country device t)⟩
      (fun u hu => h u (List.mem_cons_of_mem _ hu))
    rw [key]
    simp [JSObject.spread_cons, setValue, tileEntry, tileHash, tileSample]

/-- A loop that ends without an error has validated the labels of every tile. -/
theorem populate_none (country device : String) (tiles : List Tile) (g : Gauge)
    (h : (populate country device tiles g).1 = none) :
    ∀ t ∈ tiles, ∀ k ∈ JSObject.keys (tileData country device t), k ∈ g.labelNames := by
  induction tiles generalizing g with
  | nil => simp
  | cons t rest ih =>
    by_cases ht : ∀ k ∈ JSObject.keys (tileData country device t), k ∈ g.labelNames
    · simp only [populate, Gauge.set_ok g _ _ ht] at h
      intro u hu
      rcases List.mem_cons.mp hu with hu | hu
      · exact hu ▸ ht
      · exact ih _ h u hu
    · obtain ⟨k, _, _, hv⟩ := Gauge.set_error g (tileData country device t)
        (parseFloat t.price.currentPrice.raw_amount) ht
      simp [populate, hv] at h

/-- The loop stops at the first tile that carries a label outside the schema. -/
theorem populate_stops (country device : String) (pre post : List Tile) (t : Tile) (g : Gauge)
    (hpre : ∀ u ∈ pre, ∀ k ∈ JSObject.keys (tileData country device u), k ∈ g.labelNames)
    (ht : ¬ ∀ k ∈ JSObject.keys (tileData country device t), k ∈ g.labelNames) :
    ∃ k, k ∈ JSObject.keys (tileData country device t) ∧ k ∉ g.labelNames ∧
      populate country device (pre ++ t :: post) g =
        (some (JSError.labelNotInLabelset k), (populate country device pre g).2) := by
  induction pre generalizing g with
  | nil =>
    obtain ⟨k, hk, hns, hv⟩ := Gauge.set_error g (tileData country device t)
      (parseFloat t.price.currentPrice.raw_amount) ht
    exact ⟨k, hk, hns, by simp [populate, hv]⟩
  | cons u rest ih =>
    have hu := hpre u (List.mem_cons_self _ _)
    simp only [List.cons_append, populate, Gauge.set_ok g _ _ hu]
    exact ih ⟨g.name, g.help, g.labelNames, setValue g.hashMap
      (parseFloat u.price.currentPrice.raw_amount) (tileData country device u)⟩
      (fun w hw => hpre w (List.mem_cons_of_mem _ hw)) ht

theorem mem_keys_tileData (country device : String) (t : Tile) (k : String) :
    k ∈ JSObject.keys (tileData country device t) ↔
      k = "country" ∨ k = "device" ∨ k = "partNumber" ∨
        k ∈ JSObject.keys t.filters.dimensions := by
  simp only [tileData, JSObject.mem_keys_set, JSObject.mem_keys_spread]
  simp [JSObject.keys]

/-! ## `fetchData` -/

theorem Gauge.reset_config (g : Gauge) :
    (Gauge.reset g).labelNames = g.labelNames ∧ (Gauge.reset g).name = g.name ∧
      (Gauge.reset g).help = g.help := by
  unfold Gauge.reset
  split <;> simp

theorem Gauge.reset_hashMap (g : Gauge) (h : g.labelNames ≠ []) :
    (Gauge.reset g).hashMap = [] := by
  unfold Gauge.reset
  have : ¬ g.labelNames.length = 0 := by
    intro h0; exact h (List.length_eq_zero.mp h0)
  simp [this]

/-- The call when the loader yields no payload (`null` or `undefined`). -/
theorem fetchData_absent (cfg : Config) (load : String → PageLoad)
    (country device : Option String) (s : State)
    (h : load (getURL (country.getD cfg.CONFIG_COUNTRY) (device.getD cfg.CONFIG_DEVICE)) =
          PageLoad.failure ∨
        load (getURL (country.getD cfg.CONFIG_COUNTRY) (device.getD cfg.CONFIG_DEVICE)) =
          PageLoad.document none) :
    fetchData cfg load country device s = (Completion.returned false, s) := by
  rcases h with h | h <;> simp [fetchData, extractData, h]

/-- The call on a payload with tiles, when the gauge exists. -/
theorem fetchData_existing (cfg : Config) (load : String → PageLoad)
    (country device : Option String) (s : State) (tiles : List Tile) (g : Gauge)
    (h : load (getURL (country.getD cfg.CONFIG_COUNTRY) (device.getD cfg.CONFIG_DEVICE)) =
      PageLoad.document (some { tiles := some tiles }))
    (hne : tiles ≠ []) (hg : s.gauge = some g) :
    fetchData cfg load country device s =
      ((match (populate (country.getD cfg.CONFIG_COUNTRY) (device.getD cfg.CONFIG_DEVICE) tiles
          (Gauge.reset g)).1 with
        | some e => Completion.threw e
        | none => Completion.returned true),
       { s with gauge := some (populate (country.getD cfg.CONFIG_COUNTRY)
          (device.getD cfg.CONFIG_DEVICE) tiles (Gauge.reset g)).2 }) := by
  have hlen : ¬ tiles.length = 0 := fun h0 => hne (List.length_eq_zero.mp h0)
  simp only [fetchData, extractData, h, hlen, if_false, hg]
  rcases hp : populate (country.getD cfg.CONFIG_COUNTRY) (device.getD cfg.CONFIG_DEVICE) tiles
    (Gauge.reset g) with ⟨err, g'⟩
  cases err <;> simp

/-- The call on a payload with tiles, when there is no gauge and the constructor succeeds. -/
theorem fetchData_created (cfg : Config) (load : String → PageLoad)
    (country device : Option String) (s : State) (tiles : List Tile) (g : Gauge)
    (registry : Registry)
    (h : load (getURL (country.getD cfg.CONFIG_COUNTRY) (device.getD cfg.CONFIG_DEVICE)) =
      PageLoad.document (some { tiles := some tiles }))
    (hne : tiles ≠ []) (hg : s.gauge = none)
    (hnew : Gauge.new "apple_refurbished" "Apple Refurbished" (labelNamesFor tiles) s.registry =
      Except.ok (g, registry)) :
    fetchData cfg load country device s =
      ((match (populate (country.getD cfg.CONFIG_COUNTRY) (device.getD cfg.CONFIG_DEVICE) tiles
          (Gauge.reset g)).1 with
        | some e => Completion.threw e
        | none => Completion.returned true),
       { s with registry := registry, gauge := some (populate (country.getD cfg.CONFIG_COUNTRY)
          (device.getD cfg.CONFIG_DEVICE) tiles (Gauge.reset g)).2 }) := by
  have hlen : ¬ tiles.length = 0 := fun h0 => hne (List.length_eq_zero.mp h0)
  simp only [fetchData, extractData, h, hlen, if_false, hg, hnew]
  rcases hp : populate (country.getD cfg.CONFIG_COUNTRY) (device.getD cfg.CONFIG_DEVICE) tiles
    (Gauge.reset g) with ⟨err, g'⟩
  cases err <;> simp

/-- The call on a payload with tiles, when there is no gauge and the constructor throws. -/
theorem fetchData_not_created (cfg : Config) (load : String → PageLoad)
    (country device : Option String) (s : State) (tiles : List Tile) (e : JSError)
    (h : load (getURL (country.getD cfg.CONFIG_COUNTRY) (device.getD cfg.CONFIG_DEVICE)) =
      PageLoad.document (some { tiles := some tiles }))
    (hne : tiles ≠ []) (hg : s.gauge = none)
    (hnew : Gauge.new "apple_refurbished" "Apple Refurbished" (labelNamesFor tiles) s.registry =
      Except.error e) :
    fetchData cfg load country device s = (Completion.threw e, s) := by
  have hlen : ¬ tiles.length = 0 := fun h0 => hne (List.length_eq_zero.mp h0)
  simp only [fetchData, extractData, h, hlen, if_false, hg, hnew]

/-- A call that returns `true` leaves a gauge whose observations are the entries of the tiles,
written in order into an empty `hashMap`. -/
theorem fetchData_true (cfg : Config) (load : String → PageLoad)
    (country device : Option String) (s : State) (tiles : List Tile)
    (h : load (getURL (country.getD cfg.CONFIG_COUNTRY) (device.getD cfg.CONFIG_DEVICE)) =
      PageLoad.document (some { tiles := some tiles }))
    (htrue : (fetchData cfg load country device s).1 = Completion.returned true) :
    tiles ≠ [] ∧ ∃ g, (fetchData cfg load country device s).2.gauge = some g ∧
      g.hashMap = JSObject.spread []
        (tiles.map (tileEntry (country.getD cfg.CONFIG_COUNTRY)
          (device.getD cfg.CONFIG_DEVICE))) := by
  have hne : tiles ≠ [] := by
    intro h0
    subst h0
    simp [fetchData, extractData, h] at htrue
  refine ⟨hne, ?_⟩
  obtain ⟨t0, rest, htiles⟩ := List.exists_cons_of_ne_nil hne
  -- the loop that ran to the end, from whichever gauge it started
  have finish : ∀ g0 : Gauge,
      (populate (country.getD cfg.CONFIG_COUNTRY) (device.getD cfg.CONFIG_DEVICE) tiles
        (Gauge.reset g0)).1 = none →
      (populate (country.getD cfg.CONFIG_COUNTRY) (device.getD cfg.CONFIG_DEVICE) tiles
        (Gauge.reset g0)).2.hashMap = JSObject.spread []
          (tiles.map (tileEntry (country.getD cfg.CONFIG_COUNTRY)
            (device.getD cfg.CONFIG_DEVICE))) := by
    intro g0 hnone
    have hall := populate_none _ _ _ _ hnone
    have hc : "country" ∈ (Gauge.reset g0).labelNames := by
      apply hall t0 (by simp [htiles])
      rw [mem_keys_tileData]
      exact Or.inl rfl
    have hnn : g0.labelNames ≠ [] := by
      rw [(Gauge.reset_config g0).1] at hc
      exact List.ne_nil_of_mem hc
    rw [populate_ok _ _ _ _ hall]
    simp [Gauge.reset_hashMap g0 hnn]
  cases hg : s.gauge with
  | some g0 =>
    rw [fetchData_existing cfg load country device s tiles g0 h hne hg] at htrue ⊢
    refine ⟨_, rfl, finish g0 ?_⟩
    cases hp : (populate (country.getD cfg.CONFIG_COUNTRY) (device.getD cfg.CONFIG_DEVICE) tiles
      (Gauge.reset g0)).1 with
    | none => rfl
    | some e => simp [hp] at htrue
  | none =>
    cases hnew : Gauge.new "apple_refurbished" "Apple Refurbished" (labelNamesFor tiles)
      s.registry with
    | error e =>
      rw [fetchData_not_created cfg load country device s tiles e h hne hg hnew] at htrue
      simp at htrue
    | ok p =>
      obtain ⟨g0, registry⟩ := p
      rw [fetchData_created cfg load country device s tiles g0 registry h hne hg hnew] at htrue ⊢
      refine ⟨_, rfl, finish g0 ?_⟩
      cases hp : (populate (country.getD cfg.CONFIG_COUNTRY) (device.getD cfg.CONFIG_DEVICE)
        tiles (Gauge.reset g0)).1 with
      | none => rfl
      | some e => simp [hp] at htrue

/-! ## The observations after a successful call -/

/-- The observations in a `hashMap` filled from empty with the entries of the tiles: the sample
of every tile that no later tile with the same hash has overwritten. -/
theorem mem_populated (country device : String) (tiles : List Tile) (o : Sample) :
    o ∈ (JSObject.spread [] (tiles.map (tileEntry country device))).map Prod.snd ↔
      ∃ pre t post, tiles = pre ++ t :: post ∧ o = tileSample country device t ∧
        ∀ u ∈ post, tileHash country device u ≠ tileHash country device t := by
  have hwf : JSObject.WF (JSObject.spread ([] : JSObject Sample)
      (tiles.map (tileEntry country device))) :=
    JSObject.wf_spread _ _ (by simp [JSObject.WF, JSObject.keys])
  constructor
  · intro ho
    obtain ⟨⟨k, o'⟩, hmem, heq⟩ := List.mem_map.mp ho
    simp only at heq
    subst heq
    rw [JSObject.mem_iff_get _ hwf, JSObject.get_spread] at hmem
    have hrev : JSObject.get (tiles.map (tileEntry country device)).reverse k = some o' := by
      cases hr : JSObject.get (tiles.map (tileEntry country device)).reverse k with
      | some v => rw [hr] at hmem; simpa using hmem
      | none => rw [hr] at hmem; simp [JSObject.get] at hmem
    obtain ⟨pre', post', hsplit, hpost⟩ := (JSObject.get_reverse_eq_some _ _ _).mp hrev
    obtain ⟨pre, rest, htiles, hpre, hrest⟩ := List.map_eq_append_iff.mp hsplit
    obtain ⟨t, post, hrest', ht, hpostmap⟩ := List.map_eq_cons_iff.mp hrest
    subst hrest' htiles
    simp only [tileEntry, Prod.mk.injEq] at ht
    refine ⟨pre, t, post, rfl, ht.2.symm, ?_⟩
    intro u hu
    have := hpost (tileEntry country device u) (hpostmap ▸ List.mem_map_of_mem _ hu)
    simpa [tileEntry, ht.1] using this
  · rintro ⟨pre, t, post, htiles, ho, hpost⟩
    subst htiles ho
    refine List.mem_map.mpr ⟨tileEntry country device t, ?_, rfl⟩
    show (tileHash country device t, tileSample country device t) ∈ _
    rw [JSObject.mem_iff_get _ hwf, JSObject.get_spread]
    have hrev : JSObject.get ((pre ++ t :: post).map (tileEntry country device)).reverse
        (tileHash country device t) = some (tileSample country device t) := by
      rw [JSObject.get_reverse_eq_some]
      refine ⟨pre.map (tileEntry country device), post.map (tileEntry country device), ?_, ?_⟩
      · simp [tileEntry]
      · intro e he
        obtain ⟨u, hu, hue⟩ := List.mem_map.mp he
        subst hue
        exact hpost u hu
    rw [hrev]

/-- The number of entries in a `hashMap` filled from empty: one per distinct hash. -/
theorem length_populated (country device : String) (tiles : List Tile) :
    (JSObject.spread ([] : JSObject Sample) (tiles.map (tileEntry country device))).length =
      (tiles.map (tileHash country device)).dedup.length := by
  have hwf : JSObject.WF (JSObject.spread ([] : JSObject Sample)
      (tiles.map (tileEntry country device))) :=
    JSObject.wf_spread _ _ (by simp [JSObject.WF, JSObject.keys])
  have hlen : (JSObject.spread ([] : JSObject Sample)
      (tiles.map (tileEntry country device))).length =
      (JSObject.keys (JSObject.spread ([] : JSObject Sample)
        (tiles.map (tileEntry country device)))).length := by
    simp [JSObject.keys]
  rw [hlen, ← List.toFinset_card_of_nodup hwf, ← List.card_toFinset]
  congr 1
  ext x
  simp only [List.mem_toFinset, JSObject.mem_keys_spread]
  simp [JSObject.keys, tileEntry]

/-- Reading a label of the object built for a tile. -/
theorem get_tileData (country device : String) (t : Tile) (k : String) :
    JSObject.get (tileData country device t) k =
      if k = "country" then some country
      else if k = "device" then some device
      else if k = "partNumber" then some t.partNumber
      else JSObject.get (JSObject.spread [] t.filters.dimensions) k := by
  simp only [tileData, JSObject.get_set]
  by_cases h1 : k = "country"
  · simp [h1]
  · have h1' : ¬ "country" = k := fun e => h1 e.symm
    by_cases h2 : k = "device"
    · simp [h2]
    · have h2' : ¬ "device" = k := fun e => h2 e.symm
      by_cases h3 : k = "partNumber"
      · simp [h3]
      · have h3' : ¬ "partNumber" = k := fun e => h3 e.symm
        simp [h1, h2, h3, h1', h2', h3']

/-! ## Label discovery and creation -/

theorem mem_foldl_setAdd (ks acc : List String) (x : String) :
    x ∈ ks.foldl setAdd acc ↔ x ∈ acc ∨ x ∈ ks := by
  induction ks generalizing acc with
  | nil => simp
  | cons k ks ih =>
    rw [List.foldl_cons, ih]
    unfold setAdd
    split
    · constructor
      · rintro (h | h)
        · exact Or.inl h
        · exact Or.inr (List.mem_cons_of_mem _ h)
      · rintro (h | h)
        · exact Or.inl h
        · rcases List.mem_cons.mp h with h | h
          · subst h; exact Or.inl (by assumption)
          · exact Or.inr h
    · simp only [List.mem_append, List.mem_singleton, List.mem_cons]
      tauto

theorem mem_discoverLabels (tiles : List Tile) (x : String) :
    x ∈ discoverLabels tiles ↔ ∃ t ∈ tiles, x ∈ JSObject.keys t.filters.dimensions := by
  have gen : ∀ (acc : List String),
      x ∈ tiles.foldl
          (fun labels t => (JSObject.keys t.filters.dimensions).foldl setAdd labels) acc ↔
        x ∈ acc ∨ ∃ t ∈ tiles, x ∈ JSObject.keys t.filters.dimensions := by
    induction tiles with
    | nil => simp
    | cons t rest ih =>
      intro acc
      rw [List.foldl_cons, ih, mem_foldl_setAdd]
      simp only [List.mem_cons, exists_eq_or_imp]
      tauto
  simpa [discoverLabels] using gen []

theorem mem_labelNamesFor (tiles : List Tile) (x : String) :
    x ∈ labelNamesFor tiles ↔
      (∃ t ∈ tiles, x ∈ JSObject.keys t.filters.dimensions) ∨
        x = "partNumber" ∨ x = "country" ∨ x = "device" := by
  simp [labelNamesFor, mem_discoverLabels]

/-- A call that leaves no gauge has changed nothing. -/
theorem fetchData_gauge_none (cfg : Config) (load : String → PageLoad)
    (country device : Option String) (s : State)
    (h : (fetchData cfg load country device s).2.gauge = none) :
    (fetchData cfg load country device s).2 = s := by
  unfold fetchData at h ⊢
  simp only at h ⊢
  split
  · rfl
  · rfl
  · rename_i data hdata
    simp only [hdata] at h
    split
    · rfl
    · rename_i tiles htiles
      simp only [htiles] at h
      by_cases hlen : tiles.length = 0
      · simp [hlen]
      · simp only [hlen, if_false] at h ⊢
        split
        · rfl
        · rename_i g registry hcreated
          simp only [hcreated] at h
          split <;> rename_i hp <;> simp [hp] at h

/-- In a reachable state without a gauge, the name of the gauge is not registered. -/
theorem reachable_unregistered (cfg : Config) (s : State) (hr : Reachable cfg s)
    (hg : s.gauge = none) : "apple_refurbished" ∉ s.registry.metricNames := by
  induction hr with
  | init => simp [init, collectDefaultMetrics, Registry.new]
  | step s0 c _ ih =>
    have hs := fetchData_gauge_none cfg c.load c.country c.device s0 hg
    rw [hs] at hg ⊢
    exact ih hg

/-! ## The claims -/

/-- C6: for every state and every payload whose tile list is missing or empty, `fetchData`
returns `false` and the state (gauge, its observations, both registries) is the one before the
call. -/
theorem fetchData_empty_tiles (cfg : Config) (load : String → PageLoad)
    (country device : Option String) (s : State) (payload : Payload)
    (h : load (getURL (country.getD cfg.CONFIG_COUNTRY) (device.getD cfg.CONFIG_DEVICE)) =
      PageLoad.document (some payload))
    (hempty : payload.tiles = none ∨ payload.tiles = some []) :
    fetchData cfg load country device s = (Completion.returned false, s) := by
  rcases hempty with he | he <;> simp [fetchData, extractData, h, he]

theorem fetchData_empty_tiles_witness :
    stateA.gauge.map Gauge.observations =
        some [{ value := JSNumber.finite false 499 0,
                labels := [("color", "black"), ("partNumber", "MX1"), ("device", "mac"),
                  ("country", "at")] }] ∧
      fetchData defaultConfig (loadTiles []) (some "de") (some "ipad") stateA =
        (Completion.returned false, stateA) :=
  ⟨by decide,
   fetchData_empty_tiles defaultConfig (loadTiles []) (some "de") (some "ipad") stateA
     { tiles := some [] } rfl (Or.inr rfl)⟩

/-- C7: when the page loader fails (`extractData` returns `null`) or the document has no
bootstrap global (`extractData` returns `undefined`), `fetchData` returns `false` and the state
is unchanged: no gauge is created, the schema and the observations stay as they were. -/
theorem fetchData_absent_payload (cfg : Config) (load : String → PageLoad)
    (country device : Option String) (s : State)
    (h : load (getURL (country.getD cfg.CONFIG_COUNTRY) (device.getD cfg.CONFIG_DEVICE)) =
          PageLoad.failure ∨
        load (getURL (country.getD cfg.CONFIG_COUNTRY) (device.getD cfg.CONFIG_DEVICE)) =
          PageLoad.document none) :
    (extractData load (getURL (country.getD cfg.CONFIG_COUNTRY)
        (device.getD cfg.CONFIG_DEVICE)) = Data.null ∨
      extractData load (getURL (country.getD cfg.CONFIG_COUNTRY)
        (device.getD cfg.CONFIG_DEVICE)) = Data.undefined) ∧
    fetchData cfg load country device s = (Completion.returned false, s) := by
  refine ⟨?_, fetchData_absent cfg load country device s h⟩
  rcases h with h | h
  · exact Or.inl (by simp [extractData, h])
  · exact Or.inr (by simp [extractData, h])

theorem fetchData_absent_payload_witness :
    (extractData (fun _ => PageLoad.document none) (getURL "at" "mac") = Data.null ∨
      extractData (fun _ => PageLoad.document none) (getURL "at" "mac") = Data.undefined) ∧
    fetchData defaultConfig (fun _ => PageLoad.document none) none none stateA =
      (Completion.returned false, stateA) :=
  fetchData_absent_payload defaultConfig (fun _ => PageLoad.document none) none none stateA
    (Or.inr rfl)

/-- C8 (counterexample): `/metrics?device=ipad&country=de` with a loader failure is answered
through `res.status(500).send('Error fetching data')`, which serves the string as
`text/html; charset=utf-8`, not as plain text. -/
theorem metrics_loader_failure_counterexample :
    (metricsHandler defaultConfig loadFailure { device := some "ipad", country := some "de" }
        init).1 =
      { status := 500, contentType := some "text/html; charset=utf-8",
        body := Body.text "Error fetching data" } ∧
    some "text/html; charset=utf-8" ≠ some Registry.contentType := by
  decide

/-- C8 (amended): for every query and every state, when the page loader fails the handler of
`GET /metrics` answers status 500 with the string body `Error fetching data` sent by
`res.send`, so with the content type `text/html; charset=utf-8`; it does not serve the
exposition, and the state after the request is the state before it. -/
theorem metrics_loader_failure (cfg : Config) (load : String → PageLoad) (query : Query)
    (s : State)
    (h : load (getURL (query.country.getD cfg.CONFIG_COUNTRY)
      (query.device.getD cfg.CONFIG_DEVICE)) = PageLoad.failure) :
    metricsHandler cfg load query s =
      ({ status := 500, contentType := some "text/html; charset=utf-8",
         body := Body.text "Error fetching data" }, s) := by
  simp [metricsHandler, Response.send,
    fetchData_absent cfg load query.country query.device s (Or.inl h)]

theorem metrics_loader_failure_witness :
    metricsHandler defaultConfig loadFailure { device := some "ipad", country := some "de" }
        stateA =
      ({ status := 500, contentType := some "text/html; charset=utf-8",
         body := Body.text "Error fetching data" }, stateA) :=
  metrics_loader_failure defaultConfig loadFailure { device := some "ipad", country := some "de" }
    stateA rfl

/-- One call on a state with a gauge: the gauge stays, with its configuration, and so do the
registries. -/
theorem fetchData_keeps_gauge (cfg : Config) (load : String → PageLoad)
    (country device : Option String) (s : State) (g : Gauge) (hg : s.gauge = some g) :
    ∃ g', (fetchData cfg load country device s).2.gauge = some g' ∧
      g'.labelNames = g.labelNames ∧ g'.name = g.name ∧ g'.help = g.help ∧
      (fetchData cfg load country device s).2.registry = s.registry ∧
      (fetchData cfg load country device s).2.register = s.register := by
  cases hl : load (getURL (country.getD cfg.CONFIG_COUNTRY) (device.getD cfg.CONFIG_DEVICE)) with
  | failure =>
    rw [fetchData_absent cfg load country device s (Or.inl hl)]
    exact ⟨g, hg, rfl, rfl, rfl, rfl, rfl⟩
  | document bootstrap =>
    cases bootstrap with
    | none =>
      rw [fetchData_absent cfg load country device s (Or.inr hl)]
      exact ⟨g, hg, rfl, rfl, rfl, rfl, rfl⟩
    | some payload =>
      obtain ⟨tiles⟩ := payload
      cases tiles with
      | none =>
        have : fetchData cfg load country device s = (Completion.returned false, s) := by
          simp [fetchData, extractData, hl]
        rw [this]
        exact ⟨g, hg, rfl, rfl, rfl, rfl, rfl⟩
      | some tiles =>
        by_cases hne : tiles = []
        · have : fetchData cfg load country device s = (Completion.returned false, s) := by
            simp [fetchData, extractData, hl, hne]
          rw [this]
          exact ⟨g, hg, rfl, rfl, rfl, rfl, rfl⟩
        · rw [fetchData_existing cfg load country device s tiles g hl hne hg]
          have hp := populate_config (country.getD cfg.CONFIG_COUNTRY)
            (device.getD cfg.CONFIG_DEVICE) tiles (Gauge.reset g)
          have hr := Gauge.reset_config g
          exact ⟨_, rfl, hp.1.trans hr.1, hp.2.1.trans hr.2.1, hp.2.2.trans hr.2.2, rfl, rfl⟩

/-- C4: once the gauge exists, no sequence of later calls of `fetchData`, whatever their
payloads, arguments and outcomes, changes its label names, name or help text, and none
constructs a gauge again: the registry in which a constructor would register is unchanged. -/
theorem schema_stable (cfg : Config) (calls : List Call) (s : State) (g : Gauge)
    (hg : s.gauge = some g) :
    ∃ g', (run cfg calls s).gauge = some g' ∧ g'.labelNames = g.labelNames ∧
      g'.name = g.name ∧ g'.help = g.help ∧
      (run cfg calls s).registry = s.registry ∧ (run cfg calls s).register = s.register := by
  induction calls generalizing s g with
  | nil => exact ⟨g, hg, rfl, rfl, rfl, rfl, rfl⟩
  | cons c rest ih =>
    obtain ⟨g1, hg1, hl1, hn1, hh1, hr1, hx1⟩ :=
      fetchData_keeps_gauge cfg c.load c.country c.device s g hg
    obtain ⟨g2, hg2, hl2, hn2, hh2, hr2, hx2⟩ := ih _ g1 hg1
    exact ⟨g2, hg2, hl2.trans hl1, hn2.trans hn1, hh2.trans hh1, hr2.trans hr1, hx2.trans hx1⟩

theorem schema_stable_witness :
    ∃ g', (run defaultConfig laterCalls stateA).gauge = some g' ∧
      g'.labelNames = ["color", "partNumber", "country", "device"] ∧
      g'.name = "apple_refurbished" ∧ g'.help = "Apple Refurbished" ∧
      (run defaultConfig laterCalls stateA).registry = stateA.registry ∧
      (run defaultConfig laterCalls stateA).register = stateA.register :=
  schema_stable defaultConfig laterCalls stateA stateAGauge (by decide)

/-- C9: the default label `app` is set on the library's global registry, not on `registry`:
after the module body has run `registry` has no default label, and the exposition that
`GET /metrics` serves for scenario A has one sample, without a label `app`. -/
theorem metrics_without_app_label :
    init.registry.defaultLabels = [] ∧
    init.register.defaultLabels = [("app", "apple-refurbished")] ∧
    (metricsHandler defaultConfig (loadTiles [tileA])
        { device := some "mac", country := some "at" } init).1 =
      { status := 200, contentType := some Registry.contentType,
        body := Body.exposition
          { defaultMetrics := true
            samples := [{ value := JSNumber.finite false 499 0,
                          labels := [("color", "black"), ("partNumber", "MX1"),
                            ("device", "mac"), ("country", "at")] }] } } := by
  decide

/-- The label names of a first call are valid when the dimension keys are. -/
theorem validateLabelName_labelNamesFor (tiles : List Tile)
    (hvalid : ∀ t ∈ tiles, ∀ k ∈ JSObject.keys t.filters.dimensions, labelRegexp k = true) :
    validateLabelName (labelNamesFor tiles) = true := by
  unfold validateLabelName
  rw [List.all_eq_true]
  intro x hx
  rcases (mem_labelNamesFor tiles x).mp hx with ⟨t, ht, hk⟩ | h | h | h
  · exact hvalid t ht x hk
  · subst h; decide
  · subst h; decide
  · subst h; decide

/-- C3 (counterexample): from the initial state, a payload whose only tile has the dimension key
`a-b` makes the constructor throw; `fetchData` throws and no gauge is created. -/
theorem schema_at_creation_counterexample :
    fetchData defaultConfig (loadTiles [mkTile "a-b" "x" "MX1" "499.00"]) none none init =
      (Completion.threw JSError.invalidLabelName, init) := by
  decide

/-- C3 (amended): in a reachable state without a gauge, a call with a non-empty tile list whose
dimension keys are all valid label names creates the gauge and returns `true`; the label names
of the gauge are, as a set, the dimension keys of all tiles together with `partNumber`,
`country` and `device`. -/
theorem schema_at_creation (cfg : Config) (load : String → PageLoad)
    (country device : Option String) (s : State) (tiles : List Tile)
    (hr : Reachable cfg s) (hg : s.gauge = none)
    (h : load (getURL (country.getD cfg.CONFIG_COUNTRY) (device.getD cfg.CONFIG_DEVICE)) =
      PageLoad.document (some { tiles := some tiles }))
    (hne : tiles ≠ [])
    (hvalid : ∀ t ∈ tiles, ∀ k ∈ JSObject.keys t.filters.dimensions, labelRegexp k = true) :
    (fetchData cfg load country device s).1 = Completion.returned true ∧
    ∃ g, (fetchData cfg load country device s).2.gauge = some g ∧
      ∀ k, k ∈ g.labelNames ↔
        ((∃ t ∈ tiles, k ∈ JSObject.keys t.filters.dimensions) ∨
          k = "partNumber" ∨ k = "country" ∨ k = "device") := by
  have hun := reachable_unregistered cfg s hr hg
  have hnew : Gauge.new "apple_refurbished" "Apple Refurbished" (labelNamesFor tiles)
      s.registry = Except.ok
        (Gauge.reset ⟨"apple_refurbished", "Apple Refurbished", labelNamesFor tiles, []⟩,
          { s.registry with metricNames := s.registry.metricNames ++ ["apple_refurbished"] }) := by
    simp [Gauge.new, validateLabelName_labelNamesFor tiles hvalid, Registry.registerMetric, hun]
  rw [fetchData_created cfg load country device s tiles _ _ h hne hg hnew]
  have hcfg := Gauge.reset_config
    (Gauge.reset ⟨"apple_refurbished", "Apple Refurbished", labelNamesFor tiles, []⟩)
  have hcfg0 := Gauge.reset_config
    ⟨"apple_refurbished", "Apple Refurbished", labelNamesFor tiles, []⟩
  have hnames : (Gauge.reset (Gauge.reset
      ⟨"apple_refurbished", "Apple Refurbished", labelNamesFor tiles, []⟩)).labelNames =
      labelNamesFor tiles := hcfg.1.trans hcfg0.1
  have hall : ∀ t ∈ tiles, ∀ k ∈ JSObject.keys (tileData (country.getD cfg.CONFIG_COUNTRY)
      (device.getD cfg.CONFIG_DEVICE) t),
      k ∈ (Gauge.reset (Gauge.reset
        ⟨"apple_refurbished", "Apple Refurbished", labelNamesFor tiles, []⟩)).labelNames := by
    intro t ht k hk
    rw [hnames, mem_labelNamesFor]
    rcases (mem_keys_tileData _ _ t k).mp hk with hk | hk | hk | hk
    · exact Or.inr (Or.inr (Or.inl hk))
    · exact Or.inr (Or.inr (Or.inr hk))
    · exact Or.inr (Or.inl hk)
    · exact Or.inl ⟨t, ht, hk⟩
  rw [populate_ok _ _ _ _ hall]
  refine ⟨rfl, _, rfl, ?_⟩
  intro k
  show k ∈ (Gauge.reset (Gauge.reset
      ⟨"apple_refurbished", "Apple Refurbished", labelNamesFor tiles, []⟩)).labelNames ↔ _
  rw [hnames, mem_labelNamesFor]

theorem schema_at_creation_witness :
    (fetchData defaultConfig (loadTiles [tileA, mkTile "storage" "256gb" "MX2" "599.00"])
        none none init).1 = Completion.returned true ∧
    ∃ g, (fetchData defaultConfig (loadTiles [tileA, mkTile "storage" "256gb" "MX2" "599.00"])
        none none init).2.gauge = some g ∧
      ∀ k, k ∈ g.labelNames ↔
        ((∃ t ∈ [tileA, mkTile "storage" "256gb" "MX2" "599.00"],
            k ∈ JSObject.keys t.filters.dimensions) ∨
          k = "partNumber" ∨ k = "country" ∨ k = "device") :=
  schema_at_creation defaultConfig
    (loadTiles [tileA, mkTile "storage" "256gb" "MX2" "599.00"]) none none init
    [tileA, mkTile "storage" "256gb" "MX2" "599.00"] Reachable.init rfl rfl (by decide)
    (by decide)

/-- C5 (counterexample): after scenario A the schema is `color`, `partNumber`, `country`,
`device`; a call whose tile carries the key `storage` throws. -/
theorem schema_divergence_counterexample :
    (fetchData defaultConfig (loadTiles [mkTile "storage" "256gb" "MX2" "599.00"])
        (some "at") (some "mac") stateA).1 =
      Completion.threw (JSError.labelNotInLabelset "storage") := by
  decide

/-- What the constructor returns has the label names it was given. -/
theorem Gauge.new_labelNames (name help : String) (labelNames : List String)
    (registry registry' : Registry) (g : Gauge)
    (h : Gauge.new name help labelNames registry = Except.ok (g, registry')) :
    g.labelNames = labelNames := by
  unfold Gauge.new at h
  by_cases hv : validateLabelName labelNames = true
  · by_cases hn : name ∈ registry.metricNames
    · simp [hv, Registry.registerMetric, hn] at h
    · simp only [hv, if_true, Registry.registerMetric, hn, if_false] at h
      simp only [Except.ok.injEq, Prod.mk.injEq] at h
      rw [← h.1]
      exact (Gauge.reset_config _).1
  · simp [hv] at h

/-- A call keeps the three fixed labels in the schema of the gauge, and a call that creates the
gauge puts them there. -/
theorem fetchData_fixed_labels (cfg : Config) (load : String → PageLoad)
    (country device : Option String) (s : State) (g' : Gauge)
    (hinv : ∀ g, s.gauge = some g →
      ∀ x ∈ ["partNumber", "country", "device"], x ∈ g.labelNames)
    (hg' : (fetchData cfg load country device s).2.gauge = some g') :
    ∀ x ∈ ["partNumber", "country", "device"], x ∈ g'.labelNames := by
  cases hs : s.gauge with
  | some g =>
    obtain ⟨g1, hg1, hl1, _⟩ := fetchData_keeps_gauge cfg load country device s g hs
    rw [hg1] at hg'
    have : g1 = g' := Option.some.inj hg'
    subst this
    rw [hl1]
    exact hinv g hs
  | none =>
    by_cases hch : (fetchData cfg load country device s).2 = s
    · rw [hch, hs] at hg'
      exact absurd hg' (by simp)
    · cases hl : load (getURL (country.getD cfg.CONFIG_COUNTRY)
          (device.getD cfg.CONFIG_DEVICE)) with
      | failure =>
        exact absurd (by rw [fetchData_absent cfg load country device s (Or.inl hl)]) hch
      | document bootstrap =>
        cases bootstrap with
        | none =>
          exact absurd (by rw [fetchData_absent cfg load country device s (Or.inr hl)]) hch
        | some payload =>
          obtain ⟨tiles⟩ := payload
          cases tiles with
          | none => exact absurd (by simp [fetchData, extractData, hl]) hch
          | some tiles =>
            by_cases hne : tiles = []
            · exact absurd (by simp [fetchData, extractData, hl, hne]) hch
            · cases hnew : Gauge.new "apple_refurbished" "Apple Refurbished"
                  (labelNamesFor tiles) s.registry with
              | error e =>
                exact absurd
                  (by rw [fetchData_not_created cfg load country device s tiles e hl hne hs hnew])
                  hch
              | ok p =>
                obtain ⟨g0, registry⟩ := p
                rw [fetchData_created cfg load country device s tiles g0 registry hl hne hs
                  hnew] at hg'
                have hg0 : (populate (country.getD cfg.CONFIG_COUNTRY)
                    (device.getD cfg.CONFIG_DEVICE) tiles (Gauge.reset g0)).2 = g' :=
                  Option.some.inj hg'
                have hnames : g'.labelNames = labelNamesFor tiles := by
                  rw [← hg0, (populate_config _ _ tiles (Gauge.reset g0)).1,
                    (Gauge.reset_config g0).1]
                  exact Gauge.new_labelNames _ _ _ _ _ _ hnew
                intro x hx
                rw [hnames, mem_labelNamesFor]
                simp only [List.mem_cons, List.mem_singleton, List.not_mem_nil, or_false] at hx
                exact Or.inr hx

/-- In a reachable state the schema of the gauge contains `partNumber`, `country` and
`device`. -/
theorem reachable_fixed_labels (cfg : Config) (s : State) (hr : Reachable cfg s) :
    ∀ g, s.gauge = some g → ∀ x ∈ ["partNumber", "country", "device"], x ∈ g.labelNames := by
  induction hr with
  | init => intro g hg; simp [init] at hg
  | step s0 c _ ih =>
    intro g hg
    exact fetchData_fixed_labels cfg c.load c.country c.device s0 g ih hg

/-- C5 (amended): in a reachable state with a gauge, when a tile of the payload carries a
dimension key that is not a label name of the gauge, while the tiles before it carry only
dimension keys that are, `fetchData` throws at that tile: the error names a label that is not
in the schema, the gauge keeps its schema, what it held before the call is gone and it holds
exactly the observations of the tiles before that tile (each unless a later one of them has the
same label hash), and the handler of `GET /metrics` answers status 500 with the body
`Error fetching data`. -/
theorem schema_divergence_throws (cfg : Config) (load : String → PageLoad)
    (country device : Option String) (s : State) (g : Gauge) (pre post : List Tile) (t : Tile)
    (k : String)
    (hr : Reachable cfg s) (hg : s.gauge = some g)
    (h : load (getURL (country.getD cfg.CONFIG_COUNTRY) (device.getD cfg.CONFIG_DEVICE)) =
      PageLoad.document (some { tiles := some (pre ++ t :: post) }))
    (hpre : ∀ u ∈ pre, ∀ x ∈ JSObject.keys u.filters.dimensions, x ∈ g.labelNames)
    (hk : k ∈ JSObject.keys t.filters.dimensions) (hks : k ∉ g.labelNames) :
    ∃ x g', x ∉ g.labelNames ∧
      fetchData cfg load country device s =
        (Completion.threw (JSError.labelNotInLabelset x), { s with gauge := some g' }) ∧
      g'.labelNames = g.labelNames ∧
      g'.hashMap = JSObject.spread []
        (pre.map (tileEntry (country.getD cfg.CONFIG_COUNTRY)
          (device.getD cfg.CONFIG_DEVICE))) ∧
      (∀ o, o ∈ Gauge.observations g' ↔
        ∃ p u q, pre = p ++ u :: q ∧
          o = tileSample (country.getD cfg.CONFIG_COUNTRY) (device.getD cfg.CONFIG_DEVICE) u ∧
          ∀ w ∈ q,
            tileHash (country.getD cfg.CONFIG_COUNTRY) (device.getD cfg.CONFIG_DEVICE) w ≠
              tileHash (country.getD cfg.CONFIG_COUNTRY) (device.getD cfg.CONFIG_DEVICE) u) ∧
      metricsHandler cfg load { device := device, country := country } s =
        ({ status := 500, contentType := some "text/html; charset=utf-8",
           body := Body.text "Error fetching data" }, { s with gauge := some g' }) := by
  have hfix := reachable_fixed_labels cfg s hr g hg
  have hnn : g.labelNames ≠ [] :=
    List.ne_nil_of_mem (hfix "country" (by simp))
  have hrc := Gauge.reset_config g
  have hpre' : ∀ u ∈ pre, ∀ x ∈ JSObject.keys (tileData (country.getD cfg.CONFIG_COUNTRY)
      (device.getD cfg.CONFIG_DEVICE) u), x ∈ (Gauge.reset g).labelNames := by
    intro u hu x hx
    rw [hrc.1]
    rcases (mem_keys_tileData _ _ u x).mp hx with hx | hx | hx | hx
    · exact hfix x (by simp [hx])
    · exact hfix x (by simp [hx])
    · exact hfix x (by simp [hx])
    · exact hpre u hu x hx
  have ht : ¬ ∀ x ∈ JSObject.keys (tileData (country.getD cfg.CONFIG_COUNTRY)
      (device.getD cfg.CONFIG_DEVICE) t), x ∈ (Gauge.reset g).labelNames := by
    intro hall
    apply hks
    rw [← hrc.1]
    exact hall k ((mem_keys_tileData _ _ t k).mpr (Or.inr (Or.inr (Or.inr hk))))
  obtain ⟨x, _, hxs, hpop⟩ := populate_stops (country.getD cfg.CONFIG_COUNTRY)
    (device.getD cfg.CONFIG_DEVICE) pre post t (Gauge.reset g) hpre' ht
  have hfd : fetchData cfg load country device s =
      (Completion.threw (JSError.labelNotInLabelset x),
        { s with gauge := some (populate (country.getD cfg.CONFIG_COUNTRY)
          (device.getD cfg.CONFIG_DEVICE) pre (Gauge.reset g)).2 }) := by
    rw [fetchData_existing cfg load country device s (pre ++ t :: post) g h (by simp) hg, hpop]
  have hmap : (populate (country.getD cfg.CONFIG_COUNTRY) (device.getD cfg.CONFIG_DEVICE) pre
      (Gauge.reset g)).2.hashMap = JSObject.spread []
        (pre.map (tileEntry (country.getD cfg.CONFIG_COUNTRY)
          (device.getD cfg.CONFIG_DEVICE))) := by
    rw [populate_ok _ _ _ _ hpre']
    simp [Gauge.reset_hashMap g hnn]
  refine ⟨x, _, ?_, hfd, ?_, hmap, ?_, ?_⟩
  · rw [← hrc.1]; exact hxs
  · exact (populate_config _ _ pre (Gauge.reset g)).1.trans hrc.1
  · intro o
    unfold Gauge.observations
    rw [hmap]
    exact mem_populated _ _ pre o
  · simp [metricsHandler, Response.send, hfd]

theorem schema_divergence_throws_witness :
    (stateA.gauge.map Gauge.observations = some [tileSample "at" "mac" tileA]) ∧
    ∃ x g', x ∉ stateAGauge.labelNames ∧
      fetchData defaultConfig
          (loadTiles [mkTile "color" "white" "MX3" "299.00",
            mkTile "storage" "256gb" "MX2" "599.00", tileA])
          (some "at") (some "mac") stateA =
        (Completion.threw (JSError.labelNotInLabelset x), { stateA with gauge := some g' }) ∧
      g'.labelNames = stateAGauge.labelNames ∧
      g'.hashMap = JSObject.spread []
        ([mkTile "color" "white" "MX3" "299.00"].map (tileEntry "at" "mac")) ∧
      (∀ o, o ∈ Gauge.observations g' ↔
        ∃ p u q, [mkTile "color" "white" "MX3" "299.00"] = p ++ u :: q ∧
          o = tileSample "at" "mac" u ∧
          ∀ w ∈ q, tileHash "at" "mac" w ≠ tileHash "at" "mac" u) ∧
      metricsHandler defaultConfig
          (loadTiles [mkTile "color" "white" "MX3" "299.00",
            mkTile "storage" "256gb" "MX2" "599.00", tileA])
          { device := some "mac", country := some "at" } stateA =
        ({ status := 500, contentType := some "text/html; charset=utf-8",
           body := Body.text "Error fetching data" }, { stateA with gauge := some g' }) :=
  ⟨by decide,
   schema_divergence_throws defaultConfig
    (loadTiles [mkTile "color" "white" "MX3" "299.00",
      mkTile "storage" "256gb" "MX2" "599.00", tileA]) (some "at") (some "mac")
    stateA stateAGauge [mkTile "color" "white" "MX3" "299.00"] [tileA]
    (mkTile "storage" "256gb" "MX2" "599.00") "storage"
    (Reachable.step init
      { load := loadTiles [tileA], country := some "at", device := some "mac" } Reachable.init)
    (by decide) rfl (by decide) (by decide) (by decide)⟩

/-- C1 (counterexample): two consecutive calls that both return `true`; the second payload has
two tiles with the same labels and the amounts `100.00` and `90.00`.  The gauge then holds the
observation with value 90 only, so the observation built from the first tile is not held. -/
theorem reset_property_counterexample :
    (fetchData defaultConfig (loadTiles [tileA]) (some "at") (some "mac") init).1 =
      Completion.returned true ∧
    (fetchData defaultConfig
        (loadTiles [mkTile "color" "black" "MX7" "100.00", mkTile "color" "black" "MX7" "90.00"])
        (some "at") (some "mac") stateA).1 = Completion.returned true ∧
    (fetchData defaultConfig
        (loadTiles [mkTile "color" "black" "MX7" "100.00", mkTile "color" "black" "MX7" "90.00"])
        (some "at") (some "mac") stateA).2.gauge.map Gauge.observations =
      some [tileSample "at" "mac" (mkTile "color" "black" "MX7" "90.00")] ∧
    tileSample "at" "mac" (mkTile "color" "black" "MX7" "100.00") ∉
      [tileSample "at" "mac" (mkTile "color" "black" "MX7" "90.00")] := by
  decide

/-- C1 (amended): after two consecutive calls that both return `true`, the observations of the
gauge are exactly the observations built from those tiles of the second payload that no later
tile of that payload with the same label hash overwrites; nothing of the first payload
survives. -/
theorem reset_property (cfg : Config) (load1 load2 : String → PageLoad)
    (country1 device1 country2 device2 : Option String) (s : State) (tiles2 : List Tile)
    (_h1 : (fetchData cfg load1 country1 device1 s).1 = Completion.returned true)
    (hP2 : load2 (getURL (country2.getD cfg.CONFIG_COUNTRY) (device2.getD cfg.CONFIG_DEVICE)) =
      PageLoad.document (some { tiles := some tiles2 }))
    (h2 : (fetchData cfg load2 country2 device2 (fetchData cfg load1 country1 device1 s).2).1 =
      Completion.returned true) :
    ∃ g, (fetchData cfg load2 country2 device2
        (fetchData cfg load1 country1 device1 s).2).2.gauge = some g ∧
      ∀ o, o ∈ Gauge.observations g ↔
        ∃ pre t post, tiles2 = pre ++ t :: post ∧
          o = tileSample (country2.getD cfg.CONFIG_COUNTRY) (device2.getD cfg.CONFIG_DEVICE) t ∧
          ∀ u ∈ post,
            tileHash (country2.getD cfg.CONFIG_COUNTRY) (device2.getD cfg.CONFIG_DEVICE) u ≠
              tileHash (country2.getD cfg.CONFIG_COUNTRY) (device2.getD cfg.CONFIG_DEVICE) t := by
  obtain ⟨_, g, hg, hmap⟩ := fetchData_true cfg load2 country2 device2 _ tiles2 hP2 h2
  refine ⟨g, hg, fun o => ?_⟩
  unfold Gauge.observations
  rw [hmap]
  exact mem_populated _ _ tiles2 o

theorem reset_property_witness :
    ∃ g, (fetchData defaultConfig
        (loadTiles [mkTile "color" "black" "MX7" "100.00", mkTile "color" "black" "MX7" "90.00"])
        (some "at") (some "mac")
        (fetchData defaultConfig (loadTiles [tileA]) (some "at") (some "mac") init).2).2.gauge =
          some g ∧
      ∀ o, o ∈ Gauge.observations g ↔
        ∃ pre t post,
          [mkTile "color" "black" "MX7" "100.00", mkTile "color" "black" "MX7" "90.00"] =
            pre ++ t :: post ∧
          o = tileSample "at" "mac" t ∧
          ∀ u ∈ post, tileHash "at" "mac" u ≠ tileHash "at" "mac" t :=
  reset_property defaultConfig (loadTiles [tileA])
    (loadTiles [mkTile "color" "black" "MX7" "100.00", mkTile "color" "black" "MX7" "90.00"])
    (some "at") (some "mac") (some "at") (some "mac") init
    [mkTile "color" "black" "MX7" "100.00", mkTile "color" "black" "MX7" "90.00"]
    (by decide) rfl (by decide)

/-- C2 (counterexample): a payload with two tiles that have the same labels and the amounts
`499.00` and `449.00`; `fetchData` returns `true` and the gauge holds one observation, with
value 449: there is none with the value of the first tile. -/
theorem observation_content_counterexample :
    (fetchData defaultConfig (loadTiles [tileA, mkTile "color" "black" "MX1" "449.00"])
        (some "at") (some "mac") init).1 = Completion.returned true ∧
    (fetchData defaultConfig (loadTiles [tileA, mkTile "color" "black" "MX1" "449.00"])
        (some "at") (some "mac") init).2.gauge.map Gauge.observations =
      some [{ value := JSNumber.finite false 449 0,
              labels := [("color", "black"), ("partNumber", "MX1"), ("device", "mac"),
                ("country", "at")] }] ∧
    parseFloat tileA.price.currentPrice.raw_amount = JSNumber.finite false 499 0 := by
  decide

/-- C2 (amended): after `fetchData` returns `true`, for every tile of the payload that no later
tile with the same label hash overwrites, the gauge holds an observation whose value is the
tile's `raw_amount` parsed by `parseFloat` and whose labels are `partNumber`, `device` and
`country` with the tile's part number and the device and country of the call, and under every
other key what the tile's dimensions have under that key. -/
theorem observation_content (cfg : Config) (load : String → PageLoad)
    (country device : Option String) (s : State) (pre post : List Tile) (t : Tile)
    (h : load (getURL (country.getD cfg.CONFIG_COUNTRY) (device.getD cfg.CONFIG_DEVICE)) =
      PageLoad.document (some { tiles := some (pre ++ t :: post) }))
    (htrue : (fetchData cfg load country device s).1 = Completion.returned true)
    (hlast : ∀ u ∈ post,
      tileHash (country.getD cfg.CONFIG_COUNTRY) (device.getD cfg.CONFIG_DEVICE) u ≠
        tileHash (country.getD cfg.CONFIG_COUNTRY) (device.getD cfg.CONFIG_DEVICE) t)
    (hwf : JSObject.WF t.filters.dimensions) :
    ∃ g o, (fetchData cfg load country device s).2.gauge = some g ∧
      o ∈ Gauge.observations g ∧
      o.value = parseFloat t.price.currentPrice.raw_amount ∧
      JSObject.get o.labels "partNumber" = some t.partNumber ∧
      JSObject.get o.labels "device" = some (device.getD cfg.CONFIG_DEVICE) ∧
      JSObject.get o.labels "country" = some (country.getD cfg.CONFIG_COUNTRY) ∧
      ∀ k, k ≠ "partNumber" → k ≠ "device" → k ≠ "country" →
        JSObject.get o.labels k = JSObject.get t.filters.dimensions k := by
  obtain ⟨_, g, hg, hmap⟩ := fetchData_true cfg load country device s _ h htrue
  refine ⟨g, tileSample (country.getD cfg.CONFIG_COUNTRY) (device.getD cfg.CONFIG_DEVICE) t,
    hg, ?_, rfl, ?_, ?_, ?_, ?_⟩
  · unfold Gauge.observations
    rw [hmap]
    exact (mem_populated _ _ _ _).mpr ⟨pre, t, post, rfl, rfl, hlast⟩
  · simp [tileSample, get_tileData]
  · simp [tileSample, get_tileData]
  · simp [tileSample, get_tileData]
  · intro k h1 h2 h3
    have hsp : JSObject.spread [] t.filters.dimensions = t.filters.dimensions := by
      have := JSObject.spread_of_wf t.filters.dimensions [] (by simpa using hwf)
      simpa using this
    simp [tileSample, get_tileData, h1, h2, h3, hsp]

theorem observation_content_witness :
    ∃ g o, (fetchData defaultConfig (loadTiles [tileA]) (some "at") (some "mac")
        init).2.gauge = some g ∧
      o ∈ Gauge.observations g ∧
      o.value = parseFloat "499.00" ∧
      JSObject.get o.labels "partNumber" = some "MX1" ∧
      JSObject.get o.labels "device" = some "mac" ∧
      JSObject.get o.labels "country" = some "at" ∧
      ∀ k, k ≠ "partNumber" → k ≠ "device" → k ≠ "country" →
        JSObject.get o.labels k = JSObject.get [("color", "black")] k :=
  observation_content defaultConfig (loadTiles [tileA]) (some "at") (some "mac") init [] [] tileA
    rfl (by decide) (by decide) (by decide)

/-- C10 (counterexample): a payload with the tile of scenario A twice; `fetchData` returns
`true` and the gauge holds one observation for the two tiles. -/
theorem observation_count_counterexample :
    (fetchData defaultConfig (loadTiles [tileA, tileA]) (some "at") (some "mac") init).1 =
      Completion.returned true ∧
    (fetchData defaultConfig (loadTiles [tileA, tileA]) (some "at") (some "mac")
        init).2.gauge.map (fun g => (Gauge.observations g).length) = some 1 ∧
    [tileA, tileA].length = 2 := by
  decide

/-- C10 (amended): after `fetchData` returns `true`, the number of observations of the gauge is
the number of distinct label hashes among the tiles of the payload; it is at most the number
of tiles, and equal to it when the label hashes of the tiles are pairwise distinct. -/
theorem observation_count (cfg : Config) (load : String → PageLoad)
    (country device : Option String) (s : State) (tiles : List Tile)
    (h : load (getURL (country.getD cfg.CONFIG_COUNTRY) (device.getD cfg.CONFIG_DEVICE)) =
      PageLoad.document (some { tiles := some tiles }))
    (htrue : (fetchData cfg load country device s).1 = Completion.returned true) :
    ∃ g, (fetchData cfg load country device s).2.gauge = some g ∧
      (Gauge.observations g).length =
        (tiles.map (tileHash (country.getD cfg.CONFIG_COUNTRY)
          (device.getD cfg.CONFIG_DEVICE))).dedup.length ∧
      (Gauge.observations g).length ≤ tiles.length ∧
      ((tiles.map (tileHash (country.getD cfg.CONFIG_COUNTRY)
          (device.getD cfg.CONFIG_DEVICE))).Nodup →
        (Gauge.observations g).length = tiles.length) := by
  obtain ⟨_, g, hg, hmap⟩ := fetchData_true cfg load country device s tiles h htrue
  have hlen : (Gauge.observations g).length =
      (tiles.map (tileHash (country.getD cfg.CONFIG_COUNTRY)
        (device.getD cfg.CONFIG_DEVICE))).dedup.length := by
    unfold Gauge.observations
    rw [List.length_map, hmap]
    exact length_populated _ _ tiles
  refine ⟨g, hg, hlen, ?_, ?_⟩
  · rw [hlen]
    have := List.Sublist.length_le (List.dedup_sublist
      (tiles.map (tileHash (country.getD cfg.CONFIG_COUNTRY) (device.getD cfg.CONFIG_DEVICE))))
    simpa using this
  · intro hnd
    rw [hlen, List.Nodup.dedup hnd, List.length_map]

theorem observation_count_witness :
    ∃ g, (fetchData defaultConfig
        (loadTiles [tileA, mkTile "color" "white" "MX2" "599.00", tileA])
        none none init).2.gauge = some g ∧
      (Gauge.observations g).length =
        ([tileA, mkTile "color" "white" "MX2" "599.00", tileA].map
          (tileHash "at" "mac")).dedup.length ∧
      (Gauge.observations g).length ≤
        [tileA, mkTile "color" "white" "MX2" "599.00", tileA].length ∧
      (([tileA, mkTile "color" "white" "MX2" "599.00", tileA].map
          (tileHash "at" "mac")).Nodup →
        (Gauge.observations g).length =
          [tileA, mkTile "color" "white" "MX2" "599.00", tileA].length) :=
  observation_count defaultConfig
    (loadTiles [tileA, mkTile "color" "white" "MX2" "599.00", tileA]) none none init
    [tileA, mkTile "color" "white" "MX2" "599.00", tileA] rfl (by decide)

end AppleRefurbished
